import Mathlib

/-!
Verification of the worker-pool core of a Cryptonight CPU miner
(`minethd.cpp`): telemetry ring buffer, work-switch protocol, the
single-way and multiway hot loops, context allocation and the self test.

Machine integers are embedded as `Nat` with explicit reduction modulo
`2^32` (`uint32_t`) or `2^64` (`uint64_t`/`size_t`) wherever the C code
can overflow.  Heap contents that the C code leaves uninitialized are
embedded as an explicit "garbage" parameter.  External collaborators
(hash kernels, allocator, clock, executor) are parameters of the
functions that call them.
-/

/-- `2^32`, the modulus of `uint32_t` arithmetic. -/
def U32 : Nat := 4294967296

/-- `2^64`, the modulus of `uint64_t` / `size_t` arithmetic. -/
def U64 : Nat := 18446744073709551616

/-- `uint64_t` subtraction `a - b` (wrapping), for `a b < 2^64`. -/
def sub64 (a b : Nat) : Nat := (a + U64 - b % U64) % U64

/-! ## minethd constructor dispatch (minethd.cpp lines 153-182, claim C10)

The constructor switches on the configured `iMultiway` (a C `int`):
cases 6, 5, 4, 2 start the corresponding multiway thread; case 1 and
`default` both start the single-way `work_main` thread. -/

/-- Which worker entry point the constructor starts. -/
inductive WorkerKind where
  | single
  | double
  | quad
  | pent
  | hex
deriving DecidableEq, Repr

/-- The `switch (iMultiway)` of the `minethd` constructor
(minethd.cpp lines 163-181): cases 6/5/4/2 pick the multiway entry
points, case 1 and `default` fall through to `work_main`. -/
def minethd_thread_kind (iMultiway : Int) : WorkerKind :=
  if iMultiway = 6 then WorkerKind.hex
  else if iMultiway = 5 then WorkerKind.pent
  else if iMultiway = 4 then WorkerKind.quad
  else if iMultiway = 2 then WorkerKind.double
  else WorkerKind.single

/-! ## minethd_alloc_ctx, print_warning branch (lines 208-214, claim C8)

External allocator calls are parameters: `hugeCtx` is the result of
`cryptonight_alloc_ctx(1, 1, &msg)` (huge pages + mlock), `hugeWarning`
records whether that call set `msg.warning`, and `regularCtx` is the
result of the fallback `cryptonight_alloc_ctx(0, 0, NULL)`. -/

structure AllocEnv where
  hugeCtx : Option Nat
  hugeWarning : Bool
  regularCtx : Option Nat

/-- Log entries emitted by `minethd_alloc_ctx`. -/
inductive AllocLog where
  | warnHugeFailed
deriving DecidableEq, Repr

/-- The `jconf::print_warning` case of `minethd_alloc_ctx`
(minethd.cpp lines 208-214): try huge pages + mlock, print the warning
if the attempt produced one, fall back to regular pages on null. -/
def minethd_alloc_ctx_pw (e : AllocEnv) : Option Nat × List AllocLog :=
  let logs := if e.hugeWarning then [AllocLog.warnHugeFailed] else []
  match e.hugeCtx with
  | some c => (some c, logs)
  | none => (e.regularCtx, logs)

/-! ## telemetry constructor (minethd.cpp lines 78-92, claim C5)

The constructor allocates `iThd` rows for the hash-count and timestamp
buffers, but the two `memset` calls inside the loop both name row `0`
(`ppHashCounts[0]`, `ppTimestamps[0]`), so rows `1..iThd-1` keep their
uninitialized heap contents.  The heap contents are the explicit
`garbage` parameter: `garbage r s` is whatever `new uint64_t[...]` left
in slot `s` of row `r`. -/

/-- Effect of one loop iteration's two `memset`s: row 0 becomes zero,
all other rows are untouched. -/
def memset_row0 (rows : Nat → Nat → Nat) : Nat → Nat → Nat :=
  fun r s => if r = 0 then 0 else rows r s

/-- The constructor loop run `n` times over one of the two buffers. -/
def telemetry_ctor_rows (garbage : Nat → Nat → Nat) : Nat → (Nat → Nat → Nat)
  | 0 => garbage
  | n + 1 => memset_row0 (telemetry_ctor_rows garbage n)

/-- `telemetry::telemetry(iThd)` (minethd.cpp lines 78-92), returning
the final contents of `ppHashCounts` and `ppTimestamps`. -/
def telemetry_ctor (iThd : Nat) (garbageHash garbageTs : Nat → Nat → Nat) :
    (Nat → Nat → Nat) × (Nat → Nat → Nat) :=
  (telemetry_ctor_rows garbageHash iThd, telemetry_ctor_rows garbageTs iThd)

/-! ## Hot-loop round model (minethd.cpp lines 377-442 and 465-549)

The hash kernels are external; a round is embedded by its observable
pieces:
* the nonce-write loop `for i: if (piNonce[i]) *piNonce[i] = ++iNonce`
  (lines 527-528), parameterized by which lane pointers are non-null;
* the solution-emission loop `for i: if (*piHashVal[i] < iTarget) push`
  (lines 532-534), parameterized by the kernel's output bytes.

`iNonce` is a `uint32_t`, so `++iNonce` wraps modulo `2^32`; the
emission nonce `iNonce - N + 1 + i` is computed in 64-bit arithmetic
and truncated back to `uint32_t` by the `job_result` constructor, which
for `iNonce < 2^32` and `N ≤ 2^32` equals
`(iNonce + 2^32 - N + 1 + i) % 2^32`. -/

/-- Lane-pointer configuration right after the pre-loop initialisation
`piNonce[i] = (i == 0) ? (uint32_t*)(bWorkBlob + 39) : nullptr`
(minethd.cpp line 483): only lane 0 is non-null. -/
def initLanes : Nat → Bool := fun i => i == 0

/-- Lane-pointer configuration after a `consume_work` refresh
(minethd.cpp lines 500-504 and 540-544): every lane is non-null. -/
def allLanes : Nat → Bool := fun _ => true

/-- The nonce-write loop body over an explicit worklist of lane indices:
for each lane whose pointer is non-null, increment `iNonce` (wrapping
`uint32_t`) and write it into that lane's blob slot.  Returns the list
of `(lane, value)` writes in order and the final `iNonce`. -/
def writeNoncesAux : List Nat → (Nat → Bool) → Nat → List (Nat × Nat) × Nat
  | [], _, n => ([], n)
  | i :: is, lanes, n =>
    if lanes i then
      let rest := writeNoncesAux is lanes ((n + 1) % U32)
      ((i, (n + 1) % U32) :: rest.1, rest.2)
    else
      writeNoncesAux is lanes n

/-- The nonce-write loop of one multiway round (minethd.cpp lines
527-528): `for (i = 0; i < N; i++) if (piNonce[i]) *piNonce[i] = ++iNonce`. -/
def writeNonces (N : Nat) (lanes : Nat → Bool) (iNonce : Nat) : List (Nat × Nat) × Nat :=
  writeNoncesAux (List.range N) lanes iNonce

/-- Little-endian interpretation of the first 8 bytes of a byte list:
what reading a `uint64_t*` finds on a little-endian machine. -/
def le64 (bytes : List Nat) : Nat :=
  (bytes.take 8).foldr (fun b acc => acc * 256 + b) 0

/-- The 64-bit comparand of a 32-byte digest: `*(uint64_t*)(digest + 24)`,
the trailing little-endian 64-bit word (minethd.cpp lines 390 and 482). -/
def trailing_word (digest : List Nat) : Nat := le64 (digest.drop 24)

/-- A solution event handed to `executor::inst()->push_event` (job id is
omitted: it is copied verbatim from the work item). -/
structure ExEvent where
  nonce : Nat
  digestBytes : List Nat
  poolId : Nat
deriving DecidableEq, Repr

/-- The nonce carried by the solution emitted for lane `i`
(minethd.cpp line 534): `iNonce - N + 1 + i`, evaluated in 64-bit
arithmetic and truncated to `uint32_t`. -/
def emittedNonce (iNonce N i : Nat) : Nat := (iNonce + U32 - N + 1 + i) % U32

/-- Lane `i`'s contribution to the emission loop (minethd.cpp lines
532-534): an event iff the lane's trailing digest word is below target. -/
def multiway_lane_event (hashOut : List Nat) (target iNonce pid : Nat) (N i : Nat) :
    Option ExEvent :=
  if trailing_word ((hashOut.drop (32 * i)).take 32) < target then
    some ⟨emittedNonce iNonce N i, (hashOut.drop (32 * i)).take 32, pid⟩
  else none

/-- The emission loop of one multiway round (minethd.cpp lines 532-534),
`iNonce` being its value after the nonce-write loop. -/
def multiway_events (N : Nat) (hashOut : List Nat) (target iNonce pid : Nat) :
    List ExEvent :=
  (List.range N).filterMap (multiway_lane_event hashOut target iNonce pid N)

/-- The emission step of one single-way iteration (minethd.cpp lines
432-433): push one event iff the digest's trailing word is below target. -/
def work_main_events (digest : List Nat) (target nonce pid : Nat) : List ExEvent :=
  if trailing_word digest < target then [⟨nonce, digest, pid⟩] else []

/-- `iNonce` after `r` further rounds of the nonce-write loop with a
fixed lane configuration (the configuration only changes at
`consume_work`). -/
def roundNonces (lanes : Nat → Bool) (N : Nat) : Nat → Nat → Nat
  | k, 0 => k
  | k, r + 1 => roundNonces lanes N (writeNonces N lanes k).2 r

/-! # Theorems -/

/-- C10: for every multiway configuration value other than 2, 4, 5 and 6
(including 0, 3 and negative values), the `minethd` constructor starts
the single-way `work_main` thread: unknown widths silently degrade to
width 1. -/
theorem C10_unknown_multiway_degrades_to_single (m : Int)
    (h2 : m ≠ 2) (h4 : m ≠ 4) (h5 : m ≠ 5) (h6 : m ≠ 6) :
    minethd_thread_kind m = WorkerKind.single := by
  unfold minethd_thread_kind
  simp [h2, h4, h5, h6]

theorem C10_unknown_multiway_degrades_to_single_witness :
    minethd_thread_kind 3 = WorkerKind.single ∧
    minethd_thread_kind 0 = WorkerKind.single ∧
    minethd_thread_kind (-1) = WorkerKind.single :=
  ⟨C10_unknown_multiway_degrades_to_single 3 (by decide) (by decide) (by decide) (by decide),
   C10_unknown_multiway_degrades_to_single 0 (by decide) (by decide) (by decide) (by decide),
   C10_unknown_multiway_degrades_to_single (-1) (by decide) (by decide) (by decide) (by decide)⟩

/-- C8: in `print_warning` memory mode, `minethd_alloc_ctx` first tries
the huge-page + mlock allocation, logs a warning exactly when that
attempt produced one, falls back to a regular-page allocation on a null
result, and hence returns null iff both the huge-page attempt and the
regular-page fallback fail. -/
theorem C8_print_warning_alloc (e : AllocEnv) :
    ((minethd_alloc_ctx_pw e).2 = [AllocLog.warnHugeFailed] ↔ e.hugeWarning = true) ∧
    (∀ c, e.hugeCtx = some c → (minethd_alloc_ctx_pw e).1 = some c) ∧
    (e.hugeCtx = none → (minethd_alloc_ctx_pw e).1 = e.regularCtx) ∧
    ((minethd_alloc_ctx_pw e).1 = none ↔ e.hugeCtx = none ∧ e.regularCtx = none) := by
  obtain ⟨h, w, r⟩ := e
  cases h <;> cases w <;> simp [minethd_alloc_ctx_pw]

theorem C8_print_warning_alloc_witness :
    (minethd_alloc_ctx_pw ⟨none, true, some 7⟩).1 = some 7 :=
  ((C8_print_warning_alloc ⟨none, true, some 7⟩).2.2.1 rfl).trans rfl

/-- C5 (code bug): the claim demands that after constructing a telemetry
object for `iThd` threads every row `r < iThd` of both buffers is fully
zeroed.  The code `memset`s row 0 in each loop iteration
(`ppHashCounts[0]`, `ppTimestamps[0]` at minethd.cpp lines 89-90), so
with `iThd = 2` and heap garbage 7 in row 1, slot 0 of timestamp row 1
still reads 7 ≠ 0 after construction, while row 0 is zeroed. -/
theorem C5_ctor_leaves_row1_garbage :
    ((telemetry_ctor 2 (fun r _ => if r = 0 then 3 else 7)
        (fun r _ => if r = 0 then 3 else 7)).2 1 0 = 7 ∧
      (telemetry_ctor 2 (fun r _ => if r = 0 then 3 else 7)
        (fun r _ => if r = 0 then 3 else 7)).2 0 0 = 0) ∧
    (7 : Nat) ≠ 0 := by
  constructor
  · constructor <;> rfl
  · decide

/-! ### Helper lemmas for the nonce-write loop -/

lemma writeNoncesAux_all_false (l : List Nat) (lanes : Nat → Bool) (n : Nat)
    (h : ∀ i ∈ l, lanes i = false) : writeNoncesAux l lanes n = ([], n) := by
  induction l with
  | nil => rfl
  | cons i is ih =>
    rw [writeNoncesAux, if_neg (by rw [h i (List.mem_cons_self i is)]; simp)]
    exact ih fun j hj => h j (List.mem_cons_of_mem i hj)

lemma writeNoncesAux_allLanes (l : List Nat) (n : Nat) :
    writeNoncesAux l allLanes n =
      ((List.range l.length).map (fun j => (l.getD j 0, (n + 1 + j) % U32)),
        if l.length = 0 then n else (n + l.length) % U32) := by
  induction l generalizing n with
  | nil => rfl
  | cons i is ih =>
    have hstep : writeNoncesAux (i :: is) allLanes n =
        ((i, (n + 1) % U32) :: (writeNoncesAux is allLanes ((n + 1) % U32)).1,
          (writeNoncesAux is allLanes ((n + 1) % U32)).2) := rfl
    rw [hstep, ih ((n + 1) % U32)]
    refine Prod.ext ?_ ?_
    · show (i, (n + 1) % U32) :: _ = _
      rw [List.length_cons, List.range_succ_eq_map, List.map_cons, List.map_map]
      refine congrArg₂ _ (by simp) ?_
      refine List.map_congr_left fun j hj => ?_
      rw [List.mem_range] at hj
      refine congrArg₂ _ (by simp) ?_
      show ((n + 1) % U32 + 1 + j) % U32 = (n + 1 + (j + 1)) % U32
      simp only [U32]
      omega
    · show (if is.length = 0 then (n + 1) % U32 else ((n + 1) % U32 + is.length) % U32) = _
      rw [List.length_cons, if_neg (Nat.succ_ne_zero _)]
      rcases Nat.eq_zero_or_pos is.length with h0 | hpos
      · rw [if_pos h0, h0]
      · rw [if_neg (Nat.pos_iff_ne_zero.mp hpos)]
        simp only [U32]
        omega

lemma writeNonces_allLanes (N k : Nat) (hN : 1 ≤ N) :
    writeNonces N allLanes k =
      ((List.range N).map (fun j => (j, (k + 1 + j) % U32)), (k + N) % U32) := by
  rw [writeNonces, writeNoncesAux_allLanes, List.length_range,
    if_neg (by omega)]
  refine Prod.ext ?_ rfl
  refine List.map_congr_left fun j hj => ?_
  rw [List.mem_range] at hj
  refine congrArg₂ _ ?_ rfl
  simp [List.getD, List.getElem?_range hj]

lemma writeNonces_initLanes (N k : Nat) (hN : 1 ≤ N) :
    writeNonces N initLanes k = ([(0, (k + 1) % U32)], (k + 1) % U32) := by
  obtain ⟨m, rfl⟩ : ∃ m, N = m + 1 := ⟨N - 1, by omega⟩
  rw [writeNonces, List.range_succ_eq_map]
  have hstep : writeNoncesAux (0 :: List.map Nat.succ (List.range m)) initLanes k =
      ((0, (k + 1) % U32) ::
          (writeNoncesAux (List.map Nat.succ (List.range m)) initLanes ((k + 1) % U32)).1,
        (writeNoncesAux (List.map Nat.succ (List.range m)) initLanes ((k + 1) % U32)).2) := rfl
  have hfalse : ∀ i ∈ List.map Nat.succ (List.range m), initLanes i = false := by
    intro i hi
    rw [List.mem_map] at hi
    obtain ⟨a, _, rfl⟩ := hi
    rfl
  rw [hstep, writeNoncesAux_all_false _ _ _ hfalse]

lemma emittedNonce_inj (iNonce N i j : Nat) (hN : N ≤ U32) (hi : i < N) (hj : j < N)
    (h : emittedNonce iNonce N i = emittedNonce iNonce N j) : i = j := by
  simp only [emittedNonce, U32] at h hN
  omega

/-- C1: for every hash computed by a worker of any width, a solution
event is pushed for a lane iff the trailing little-endian 64-bit word
of that lane's 32-byte digest is strictly less than the work item's
target (minethd.cpp lines 432-433 and 532-534); with target 0 no
solution is ever emitted, and a digest word exactly equal to the target
is not a solution. -/
theorem C1_solution_iff_strictly_below_target :
    (∀ digest target nonce pid,
        (work_main_events digest target nonce pid ≠ [] ↔
          trailing_word digest < target) ∧
        work_main_events digest 0 nonce pid = [] ∧
        work_main_events digest (trailing_word digest) nonce pid = []) ∧
    (∀ N hashOut target iNonce pid i, N ≤ 8 → i < N →
        ((∃ e ∈ multiway_events N hashOut target iNonce pid,
            e.nonce = emittedNonce iNonce N i) ↔
          trailing_word ((hashOut.drop (32 * i)).take 32) < target)) ∧
    (∀ N hashOut iNonce pid, multiway_events N hashOut 0 iNonce pid = []) ∧
    (∀ N hashOut iNonce pid i,
        multiway_lane_event hashOut (trailing_word ((hashOut.drop (32 * i)).take 32))
          iNonce pid N i = none) := by
  refine ⟨?_, ?_, ?_, ?_⟩
  · intro digest target nonce pid
    unfold work_main_events
    refine ⟨?_, by simp, by simp⟩
    split
    · simp [*]
    · simp [*]
  · intro N hashOut target iNonce pid i hN hi
    constructor
    · rintro ⟨e, he, hn⟩
      rw [multiway_events, List.mem_filterMap] at he
      obtain ⟨j, hj, hje⟩ := he
      rw [List.mem_range] at hj
      unfold multiway_lane_event at hje
      by_cases hc : trailing_word ((hashOut.drop (32 * j)).take 32) < target
      · rw [if_pos hc] at hje
        obtain rfl := Option.some.inj hje
        have hji : j = i :=
          emittedNonce_inj iNonce N j i
            (le_trans hN (by rw [U32]; omega)) hj hi hn
        exact hji ▸ hc
      · rw [if_neg hc] at hje
        exact absurd hje (by simp)
    · intro hc
      refine ⟨⟨emittedNonce iNonce N i, (hashOut.drop (32 * i)).take 32, pid⟩, ?_, rfl⟩
      rw [multiway_events, List.mem_filterMap]
      exact ⟨i, List.mem_range.mpr hi, by rw [multiway_lane_event, if_pos hc]⟩
  · intro N hashOut iNonce pid
    rw [multiway_events]
    rw [List.filterMap_eq_nil_iff]
    intro j _
    rw [multiway_lane_event]
    simp
  · intro N hashOut iNonce pid i
    rw [multiway_lane_event]
    simp

theorem C1_solution_iff_strictly_below_target_witness :
    ∃ e ∈ multiway_events 2 (List.replicate 64 0) 1 7 0,
      e.nonce = emittedNonce 7 2 0 :=
  (C1_solution_iff_strictly_below_target.2.1 2 (List.replicate 64 0) 1 7 0 0
    (by decide) (by decide)).mpr (by decide)

/-- C2 counterexample: in the very first rounds of a multiway worker
whose initial work item is live (`bStall = false`), only the lane-0
nonce pointer is non-null (minethd.cpp line 483), so the kernel
invocation writes a single nonce slot - not N slots `k+1..k+N` - and
the nonce the emission loop would attach to lane 0
(`iNonce - N + 1 + i` at line 534) is 5, not the value 6 actually
written into lane 0's blob slot.  This refutes the claim's "every
kernel invocation" at the concrete invocation N = 2, base nonce 5. -/
theorem C2_counterexample_initial_round :
    (writeNonces 2 initLanes 5).1 = [(0, 6)] ∧
    ((writeNonces 2 initLanes 5).1).length = 1 ∧
    (writeNonces 2 initLanes 5).2 = 6 ∧
    emittedNonce 6 2 0 = 5 := by
  refine ⟨by decide, by decide, by decide, by decide⟩

/-- C2 amended: in every kernel invocation of a multiway worker of
width N ∈ {2,4,5,6} in which all N lane pointers are non-null (i.e.
every invocation after the first `consume_work` refresh; see C9 for the
rounds before it), the N nonce slots written into the interleaved blob
are `k+1, ..., k+N` (mod 2^32) where k is the round's base nonce, and
the solution emitted for lane i carries nonce `k+1+i` (mod 2^32),
matching the value written into lane i's slot. -/
theorem C2_refreshed_invocation_consecutive_nonces (k N : Nat)
    (hN : N = 2 ∨ N = 4 ∨ N = 5 ∨ N = 6) :
    (writeNonces N allLanes k).1 =
      (List.range N).map (fun i => (i, (k + 1 + i) % U32)) ∧
    (writeNonces N allLanes k).2 = (k + N) % U32 ∧
    ∀ i, i < N →
      emittedNonce (writeNonces N allLanes k).2 N i = (k + 1 + i) % U32 := by
  have h1 : 1 ≤ N := by rcases hN with rfl | rfl | rfl | rfl <;> omega
  rw [writeNonces_allLanes N k h1]
  refine ⟨rfl, rfl, fun i hi => ?_⟩
  simp only [emittedNonce, U32]
  rcases hN with rfl | rfl | rfl | rfl <;> omega

theorem C2_refreshed_invocation_consecutive_nonces_witness :
    (writeNonces 2 allLanes 10).1 =
      (List.range 2).map (fun i => (i, (10 + 1 + i) % U32)) ∧
    (writeNonces 2 allLanes 10).2 = (10 + 2) % U32 :=
  ⟨(C2_refreshed_invocation_consecutive_nonces 10 2 (Or.inl rfl)).1,
   (C2_refreshed_invocation_consecutive_nonces 10 2 (Or.inl rfl)).2.1⟩

/-- C9: before the first `consume_work` refresh, only the lane-0 nonce
pointer of a multiway worker is non-null (minethd.cpp line 483), so as
long as the initial work item is processed each round writes a nonce
only into lane 0 and advances the round's nonce counter by exactly 1
(not N): after r such rounds from base nonce k the counter reads k + r
(mod 2^32). -/
theorem C9_initial_rounds_write_only_lane0 (N k r : Nat)
    (hN : 1 ≤ N) (hk : k < U32) :
    (writeNonces N initLanes k).1 = [(0, (k + 1) % U32)] ∧
    (writeNonces N initLanes k).2 = (k + 1) % U32 ∧
    roundNonces initLanes N k r = (k + r) % U32 := by
  refine ⟨by rw [writeNonces_initLanes N k hN],
    by rw [writeNonces_initLanes N k hN], ?_⟩
  induction r generalizing k with
  | zero => exact (Nat.mod_eq_of_lt hk).symm
  | succ r ih =>
    rw [roundNonces, writeNonces_initLanes N k hN]
    rw [ih ((k + 1) % U32) (Nat.mod_lt _ (by rw [U32]; omega))]
    simp only [U32]
    omega

theorem C9_initial_rounds_write_only_lane0_witness :
    (writeNonces 2 initLanes 5).1 = [(0, (5 + 1) % U32)] ∧
    roundNonces initLanes 2 5 3 = (5 + 3) % U32 :=
  ⟨(C9_initial_rounds_write_only_lane0 2 5 3 (by decide) (by decide)).1,
   (C9_initial_rounds_write_only_lane0 2 5 3 (by decide) (by decide)).2.2⟩

/-! ## switch_work (minethd.cpp lines 345-357, claim C3)

`switch_work` polls `iConsumeCnt` (sleeping 100 ms between loads) while
it is `< iThreadCount`, then writes `oGlobalWork`, stores
`iConsumeCnt = 0` and increments `iGlobalJobNo` (a `uint64_t`).  The
poll loop is embedded over the list of values the successive atomic
loads observe; the visible effects are an action trace. -/

/-- The shared pool state (`oGlobalWork` is abstracted to an id). -/
structure PoolState where
  currentWork : Nat
  consumeCnt : Nat
  globalJobNo : Nat
  threadCount : Nat
deriving DecidableEq, Repr

/-- Externally visible steps of `switch_work`, in program order. -/
inductive SwitchAction where
  | sleep100
  | writeWork
  | storeConsumeZero
  | incJobNo
deriving DecidableEq, Repr

/-- The action trace of `switch_work` (minethd.cpp lines 351-356) given
the successive values its polls of `iConsumeCnt` observe; `none` when
the observation list runs out before the wait exits. -/
def switch_work_actions (tc : Nat) : List Nat → Option (List SwitchAction)
  | [] => none
  | c :: rest =>
    if c < tc then
      (switch_work_actions tc rest).map (fun acts => SwitchAction.sleep100 :: acts)
    else
      some [SwitchAction.writeWork, SwitchAction.storeConsumeZero, SwitchAction.incJobNo]

/-- The state `switch_work(pWork)` leaves behind once its wait has
exited (minethd.cpp lines 354-356). -/
def switch_work_state (s : PoolState) (w : Nat) : PoolState :=
  { currentWork := w, consumeCnt := 0, globalJobNo := (s.globalJobNo + 1) % U64,
    threadCount := s.threadCount }

/-! ## Telemetry sampling cadence (minethd.cpp lines 419 and 517, claim C6) -/

/-- The single-way sampling test `(iCount & 0xF) == 0` (line 419). -/
def work_sample (iCount : Nat) : Bool := iCount &&& 15 == 0

/-- The multiway sampling test `(iCount & 0x3) == 0` (line 517). -/
def multiway_sample (iCount : Nat) : Bool := iCount &&& 3 == 0

/-- Whether round `j` of a width-`N` worker samples telemetry: the
single-way loop tests `iCount` (advanced by 1 per iteration, so
`iCount = j`), the multiway loop tests `iCount` advanced by `N` per
round, so `iCount = N * j`. -/
def sample_at_round (N j : Nat) : Bool :=
  if N = 1 then work_sample j else multiway_sample (N * j)

/-- Hashes between the first sample (round 0) and the next sampling
round: `N` hashes per round times the least positive sampling round. -/
def first_sample_gap (N : Nat) : Nat :=
  N * (match (List.range 17).find? (fun j => j != 0 && sample_at_round N j) with
       | some j => j
       | none => 0)

/-- Reading of the claim's "approximately every 16 hashes": within 25%
of 16 hashes. -/
def approx_sixteen (g : Nat) : Bool := 12 ≤ g && g ≤ 20

/-- C3: once every poll of `iConsumeCnt` observes at most
`iThreadCount` (the spec's invariant `consume_count ∈ [0,thread_count]`)
and the wait terminates, `switch_work`'s trace is some number of 100 ms
sleeps - each taken after observing `consume_count < thread_count` -
followed, in this order, by the write of the new work item, the store
`consume_count = 0` and the increment of `global_job_no`; the wait
exits exactly on observing `consume_count = thread_count`, and the
resulting shared state is the new work, a zero consume count, and the
old job number plus one. -/
theorem C3_switch_work_order (tc : Nat) (obs : List Nat) (acts : List SwitchAction)
    (hbound : ∀ c ∈ obs, c ≤ tc)
    (h : switch_work_actions tc obs = some acts) :
    (∃ k, acts = List.replicate k SwitchAction.sleep100 ++
        [SwitchAction.writeWork, SwitchAction.storeConsumeZero, SwitchAction.incJobNo] ∧
      (∀ m, m < k → obs.getD m 0 < tc) ∧ obs.getD k 0 = tc) ∧
    (∀ s w, switch_work_state s w =
      { currentWork := w, consumeCnt := 0, globalJobNo := (s.globalJobNo + 1) % U64,
        threadCount := s.threadCount }) := by
  refine ⟨?_, fun s w => rfl⟩
  induction obs generalizing acts with
  | nil => exact absurd h (by rw [switch_work_actions]; simp)
  | cons c rest ih =>
    rw [switch_work_actions] at h
    by_cases hc : c < tc
    · rw [if_pos hc] at h
      rw [Option.map_eq_some'] at h
      obtain ⟨acts', hrest, rfl⟩ := h
      obtain ⟨k, hacts, hlt, hexit⟩ :=
        ih acts' (fun x hx => hbound x (List.mem_cons_of_mem c hx)) hrest
      refine ⟨k + 1, ?_, ?_, ?_⟩
      · rw [hacts, List.replicate_succ, List.cons_append]
      · intro m hm
        match m with
        | 0 => exact hc
        | m + 1 => exact hlt m (by omega)
      · exact hexit
    · rw [if_neg hc] at h
      obtain rfl := Option.some.inj h.symm
      refine ⟨0, by rw [List.replicate, List.nil_append], by omega, ?_⟩
      have := hbound c (List.mem_cons_self c rest)
      show c = tc
      omega

theorem C3_switch_work_order_witness :
    (∃ k, [SwitchAction.sleep100, SwitchAction.writeWork,
        SwitchAction.storeConsumeZero, SwitchAction.incJobNo] =
        List.replicate k SwitchAction.sleep100 ++
          [SwitchAction.writeWork, SwitchAction.storeConsumeZero, SwitchAction.incJobNo] ∧
      (∀ m, m < k → [1, 2].getD m 0 < 2) ∧ [1, 2].getD k 0 = 2) ∧
    (∀ s w, switch_work_state s w =
      { currentWork := w, consumeCnt := 0, globalJobNo := (s.globalJobNo + 1) % U64,
        threadCount := s.threadCount }) :=
  C3_switch_work_order 2 [1, 2]
    [SwitchAction.sleep100, SwitchAction.writeWork,
      SwitchAction.storeConsumeZero, SwitchAction.incJobNo]
    (by decide) (by decide)

/-- C6 counterexample: with width N = 4, rounds 0 and 1 both sample
(`iCount = 0` and `iCount = 4` both satisfy `(iCount & 0x3) == 0`), so
consecutive samples are 4 hashes apart - not approximately 16 (taking
"approximately" as within 25%).  The claim's cadence conditions are as
stated, but the conclusion "every ~16 hashes regardless of the width"
fails. -/
theorem C6_counterexample_gap_not_sixteen :
    first_sample_gap 4 = 4 ∧ approx_sixteen (first_sample_gap 4) = false ∧
    sample_at_round 4 0 = true ∧ sample_at_round 4 1 = true := by
  refine ⟨by decide, by decide, by decide, by decide⟩

/-- C6 amended: a single-way worker samples exactly in the iterations
with `iCount & 0xF == 0`, i.e. `iCount ≡ 0 (mod 16)`, and a multiway
worker of width N > 1 samples exactly where `iCount & 0x3 == 0`, i.e.
`iCount ≡ 0 (mod 4)` with `iCount` advanced by N per round; under these
cadences samples land every 16 hashes for N = 1 but every `lcm(N,4)`
hashes for the multiway widths - 4, 4, 20 and 12 hashes for
N = 2, 4, 5, 6 - not approximately 16 regardless of width. -/
theorem C6_sampling_cadence_per_width :
    (∀ c, work_sample c = true ↔ c % 16 = 0) ∧
    (∀ c, multiway_sample c = true ↔ c % 4 = 0) ∧
    first_sample_gap 1 = 16 ∧ first_sample_gap 2 = 4 ∧ first_sample_gap 4 = 4 ∧
    first_sample_gap 5 = 20 ∧ first_sample_gap 6 = 12 ∧
    (∀ j, sample_at_round 2 j = true ↔ j % 2 = 0) ∧
    (∀ j, sample_at_round 4 j = true) ∧
    (∀ j, sample_at_round 5 j = true ↔ j % 4 = 0) ∧
    (∀ j, sample_at_round 6 j = true ↔ j % 2 = 0) := by
  have hand : ∀ c : Nat, c &&& 15 = c % 16 := by
    intro c
    have := Nat.and_pow_two_sub_one_eq_mod c 4
    norm_num at this
    omega
  have hand3 : ∀ c : Nat, c &&& 3 = c % 4 := by
    intro c
    have := Nat.and_pow_two_sub_one_eq_mod c 2
    norm_num at this
    omega
  have hws : ∀ c, work_sample c = true ↔ c % 16 = 0 := by
    intro c
    rw [work_sample, beq_iff_eq, hand]
  have hms : ∀ c, multiway_sample c = true ↔ c % 4 = 0 := by
    intro c
    rw [multiway_sample, beq_iff_eq, hand3]
  refine ⟨hws, hms, by decide, by decide, by decide, by decide, by decide, ?_, ?_, ?_, ?_⟩
  · intro j
    rw [sample_at_round, if_neg (by omega), hms]
    omega
  · intro j
    rw [sample_at_round, if_neg (by omega), hms]
    omega
  · intro j
    rw [sample_at_round, if_neg (by omega), hms]
    omega
  · intro j
    rw [sample_at_round, if_neg (by omega), hms]
    omega

/-! ## self_test (minethd.cpp lines 226-313, claim C7)

The kernels, `cryptonight_init` and the six `minethd_alloc_ctx` calls
are external; the environment records the init result, which of the six
allocations succeed, and the bytes each kernel wrote.  The hard-coded
expected digests and inputs are transcribed from lines 277-303; the
quad/pent/hex expected byte literals in the source are the single-hash
digest line repeated 4, 5 and 6 times, which is how they are written
here. -/

inductive SlowMemSetting where
  | never_use
  | no_mlck
  | print_warning
  | always_use
  | unknown_value
deriving DecidableEq, Repr

/-- Expected digest of `cryptonight_hash("This is a test", 14)`
(minethd.cpp line 278). -/
def cn_hash_test_digest : List Nat :=
  [0xa0, 0x84, 0xf0, 0x1d, 0x14, 0x37, 0xa0, 0x9c,
   0x69, 0x85, 0x40, 0x1b, 0x60, 0xd4, 0x35, 0x54,
   0xae, 0x10, 0x58, 0x02, 0xc5, 0xf5, 0xd8, 0xa9,
   0xb3, 0x25, 0x36, 0x49, 0xc0, 0xbe, 0x66, 0x05]

/-- Expected 64-byte output of the double-kernel test
(minethd.cpp lines 281-282). -/
def cn_double_test_digest : List Nat :=
  [0x3e, 0xbb, 0x7f, 0x9f, 0x7d, 0x27, 0x3d, 0x7c,
   0x31, 0x8d, 0x86, 0x94, 0x77, 0x55, 0x0c, 0xc8,
   0x00, 0xcf, 0xb1, 0x1b, 0x0c, 0xad, 0xb7, 0xff,
   0xbd, 0xf6, 0xf8, 0x9f, 0x3a, 0x47, 0x1c, 0x59,
   0xb4, 0x77, 0xd5, 0x02, 0xe4, 0xd8, 0x48, 0x7f,
   0x42, 0xdf, 0xe3, 0x8e, 0xed, 0x73, 0x81, 0x7a,
   0xda, 0x91, 0xb7, 0xe2, 0x63, 0xd2, 0x91, 0x71,
   0xb6, 0x5c, 0x44, 0x3a, 0x01, 0x2a, 0x41, 0x22]

/-- Expected 128-byte quad output (lines 285-288): in the source, four
repetitions of the 32-byte line of `cn_hash_test_digest`. -/
def cn_quad_test_digest : List Nat :=
  cn_hash_test_digest ++ cn_hash_test_digest ++ cn_hash_test_digest ++ cn_hash_test_digest

/-- Expected 160-byte pent output (lines 291-295): five repetitions. -/
def cn_pent_test_digest : List Nat :=
  cn_hash_test_digest ++ cn_hash_test_digest ++ cn_hash_test_digest ++
    cn_hash_test_digest ++ cn_hash_test_digest

/-- Expected 192-byte hex output (lines 298-303): six repetitions. -/
def cn_hex_test_digest : List Nat :=
  cn_hash_test_digest ++ cn_hash_test_digest ++ cn_hash_test_digest ++
    cn_hash_test_digest ++ cn_hash_test_digest ++ cn_hash_test_digest

/-- The single-hash test preimage (line 277; the length argument is 14). -/
def cn_test_input : String := "This is a test"

/-- The quad-kernel test input literal (line 284). -/
def cn_quad_test_input : String :=
  "This is a testThis is a testThis is a testThis is a test"

/-- The pent-kernel test input literal (line 290). -/
def cn_pent_test_input : String :=
  "This is a testThis is a testThis is a testThis is a testThis is a test"

/-- The hex-kernel test input literal (line 297). -/
def cn_hex_test_input : String :=
  "This is a testThis is a testThis is a testThis is a testThis is a testThis is a test"

/-- Whether the memory mode makes a failing `cryptonight_init` fatal:
the `fatal = true` assignments of the switch (lines 234-245). -/
def memFatal : SlowMemSetting → Bool
  | SlowMemSetting.never_use => true
  | SlowMemSetting.no_mlck => true
  | _ => false

structure SelfTestEnv where
  memSetting : SlowMemSetting
  initRes : Nat
  allocOk : Nat → Bool
  singleOut : List Nat
  doubleOut : List Nat
  quadOut : List Nat
  pentOut : List Nat
  hexOut : List Nat

/-- `minethd::self_test` (minethd.cpp lines 226-313): the switch on the
memory setting (with the `unknown_value`/`default` early `return
false`), the fatal-init check, the six-context allocation loop (any
null allocation returns false), and the five `memcmp`s against the
hard-coded digests. -/
def self_test (e : SelfTestEnv) : Bool :=
  match e.memSetting with
  | SlowMemSetting.unknown_value => false
  | _ =>
    if e.initRes == 0 && memFatal e.memSetting then false
    else if !((List.range 6).all e.allocOk) then false
    else
      (e.singleOut == cn_hash_test_digest) && (e.doubleOut == cn_double_test_digest) &&
        (e.quadOut == cn_quad_test_digest) && (e.pentOut == cn_pent_test_digest) &&
        (e.hexOut == cn_hex_test_digest)

lemma self_test_core (fatalB : Bool) (ir : Nat) (ak : Nat → Bool)
    (so dob qo po ho : List Nat) :
    ((if ir == 0 && fatalB then false
      else if !((List.range 6).all ak) then false
      else
        (so == cn_hash_test_digest) && (dob == cn_double_test_digest) &&
          (qo == cn_quad_test_digest) && (po == cn_pent_test_digest) &&
          (ho == cn_hex_test_digest)) = false) ↔
      ((fatalB = true ∧ ir = 0) ∨ (∃ i, i < 6 ∧ ak i = false) ∨
        so ≠ cn_hash_test_digest ∨ dob ≠ cn_double_test_digest ∨
        qo ≠ cn_quad_test_digest ∨ po ≠ cn_pent_test_digest ∨
        ho ≠ cn_hex_test_digest) := by
  by_cases h1 : (ir == 0 && fatalB) = true
  · rw [if_pos h1]
    rw [Bool.and_eq_true, beq_iff_eq] at h1
    simp [h1.1, h1.2]
  · rw [if_neg h1]
    rw [Bool.and_eq_true, beq_iff_eq, not_and_or] at h1
    have hfat : ¬(fatalB = true ∧ ir = 0) := by tauto
    by_cases h2 : ((List.range 6).all ak) = true
    · rw [if_neg (by simp [h2])]
      rw [List.all_eq_true] at h2
      have hex : ¬(∃ i, i < 6 ∧ ak i = false) := by
        rintro ⟨i, hi, hak⟩
        rw [h2 i (List.mem_range.mpr hi)] at hak
        exact Bool.noConfusion hak
      simp only [Bool.and_eq_false_iff, beq_eq_false_iff_ne, ne_eq]
      constructor
      · intro h3
        refine Or.inr (Or.inr ?_)
        tauto
      · intro h3
        rcases h3 with h3 | h3 | h3
        · exact absurd h3 hfat
        · exact absurd h3 hex
        · tauto
    · rw [if_pos (by simp [Bool.not_eq_true] at h2 ⊢; exact h2)]
      rw [Bool.not_eq_true, List.all_eq_false] at h2
      obtain ⟨i, hi, hak⟩ := h2
      rw [List.mem_range] at hi
      rw [Bool.not_eq_true] at hak
      simp only [true_iff, eq_self_iff_true]
      exact Or.inr (Or.inl ⟨i, hi, hak⟩)

/-- C7: for every valid slow-memory setting (the configuration values
the spec admits; `unknown_value` is an out-of-range sentinel),
`self_test` returns false iff the one-time `cryptonight_init` fails in
a strict memory mode (`never_use` or `no_mlck` - exactly the modes
whose switch arm sets `fatal`), or one of the six context allocations
returns null, or some kernel's output differs bytewise from its
hard-coded expected digest; moreover the quad, pent and hex expected
digests are 4, 5 and 6 consecutive copies of the single-hash digest,
and the quad/pent/hex test inputs are 4, 5 and 6 repetitions of the
14-byte preimage "This is a test". -/
theorem C7_self_test_false_iff (e : SelfTestEnv)
    (hval : e.memSetting ≠ SlowMemSetting.unknown_value) :
    (self_test e = false ↔
      (memFatal e.memSetting = true ∧ e.initRes = 0) ∨
      (∃ i, i < 6 ∧ e.allocOk i = false) ∨
      e.singleOut ≠ cn_hash_test_digest ∨ e.doubleOut ≠ cn_double_test_digest ∨
      e.quadOut ≠ cn_quad_test_digest ∨ e.pentOut ≠ cn_pent_test_digest ∨
      e.hexOut ≠ cn_hex_test_digest) ∧
    (memFatal SlowMemSetting.never_use = true ∧ memFatal SlowMemSetting.no_mlck = true ∧
      memFatal SlowMemSetting.print_warning = false ∧
      memFatal SlowMemSetting.always_use = false) ∧
    cn_quad_test_digest =
      cn_hash_test_digest ++ cn_hash_test_digest ++ cn_hash_test_digest ++
        cn_hash_test_digest ∧
    cn_pent_test_digest =
      cn_hash_test_digest ++ cn_hash_test_digest ++ cn_hash_test_digest ++
        cn_hash_test_digest ++ cn_hash_test_digest ∧
    cn_hex_test_digest =
      cn_hash_test_digest ++ cn_hash_test_digest ++ cn_hash_test_digest ++
        cn_hash_test_digest ++ cn_hash_test_digest ++ cn_hash_test_digest ∧
    cn_test_input.length = 14 ∧
    cn_quad_test_input =
      cn_test_input ++ cn_test_input ++ cn_test_input ++ cn_test_input ∧
    cn_pent_test_input =
      cn_test_input ++ cn_test_input ++ cn_test_input ++ cn_test_input ++ cn_test_input ∧
    cn_hex_test_input =
      cn_test_input ++ cn_test_input ++ cn_test_input ++ cn_test_input ++
        cn_test_input ++ cn_test_input := by
  refine ⟨?_, by decide, rfl, rfl, rfl, by decide, by decide, by decide, by decide⟩
  obtain ⟨ms, ir, ak, so, dob, qo, po, ho⟩ := e
  cases ms with
  | unknown_value => exact absurd rfl hval
  | never_use => exact self_test_core true ir ak so dob qo po ho
  | no_mlck => exact self_test_core true ir ak so dob qo po ho
  | print_warning => exact self_test_core false ir ak so dob qo po ho
  | always_use => exact self_test_core false ir ak so dob qo po ho

theorem C7_self_test_false_iff_witness :
    self_test
      ⟨SlowMemSetting.always_use, 1, fun _ => true, cn_hash_test_digest,
        cn_double_test_digest, cn_quad_test_digest, cn_pent_test_digest,
        cn_hex_test_digest⟩ = true := by
  have h :=
    (C7_self_test_false_iff
      ⟨SlowMemSetting.always_use, 1, fun _ => true, cn_hash_test_digest,
        cn_double_test_digest, cn_quad_test_digest, cn_pent_test_digest,
        cn_hex_test_digest⟩ (by decide)).1
  rcases Bool.eq_false_or_eq_true (self_test _) with ht | hf
  · exact ht
  · exfalso
    rcases h.mp hf with hfat | ⟨i, _, hak⟩ | hne | hne | hne | hne | hne
    · exact absurd hfat.1 (by decide)
    · simp at hak
    · exact hne rfl
    · exact hne rfl
    · exact hne rfl
    · exact hne rfl
    · exact hne rfl

/-! ## calc_telemetry_data (minethd.cpp lines 94-142, claim C4)

The walk starts at `i = 1` (slot `top` is the next empty one) and runs
while `i < iBucketSize`, so it examines at most `iBucketSize - 1`
slots; the recursion is fuelled with that count.  `iBucketTop` is a
`uint32_t` promoted to `size_t` in `(iBucketTop[iThread] - i)`, so the
subtraction wraps modulo `2^64` before the masking with
`iBucketMask = iBucketSize - 1`; `iBucketSize` itself lives in the
header (not part of this source file), a power of two, and is kept as
the parameter `sz`.  The `double` return value is embedded as either
`nan` or the pair of `uint64_t` differences `latest.count -
earliest.count` and `latest.ts - earliest.ts` (the quotient
`fHashes / (fTime/1000)` is formed from exactly these two numbers). -/

/-- Accumulator of the backward walk, with the source's variable names
(minethd.cpp lines 99-103). -/
structure WalkAcc where
  iEarliestHashCnt : Nat
  iEarliestStamp : Nat
  iLastestStamp : Nat
  iLastestHashCnt : Nat
  bHaveFullSet : Bool
deriving DecidableEq, Repr

/-- How the walk ended: `break` on an unwritten slot (line 111),
`break` after finding a sample older than the window (line 122, the
branch that sets `bHaveFullSet`), or `i` reaching `iBucketSize`. -/
inductive WalkExit where
  | hitUnwritten
  | leftWindow
  | exhausted
deriving DecidableEq, Repr

/-- The examined slot `(iBucketTop[iThread] - i) & iBucketMask`
(line 108): 64-bit wrapping subtraction, then the mask `sz - 1`. -/
def telemetry_idx (sz top i : Nat) : Nat := sub64 top i &&& (sz - 1)

/-- Lines 113-117: the first examined sample becomes `iLastest*`. -/
def walk_latest (ts cnt : Nat → Nat) (idx : Nat) (acc : WalkAcc) : WalkAcc :=
  if acc.iLastestStamp = 0 then
    { acc with iLastestStamp := ts idx, iLastestHashCnt := cnt idx }
  else acc

/-- The walk loop of `calc_telemetry_data` (lines 106-127), fuelled by
the number of remaining iterations. -/
def telemetry_loop (ts cnt : Nat → Nat) (sz top now window : Nat) :
    Nat → Nat → WalkAcc → WalkAcc × WalkExit
  | _, 0, acc => (acc, WalkExit.exhausted)
  | i, fuel + 1, acc =>
    if ts (telemetry_idx sz top i) = 0 then (acc, WalkExit.hitUnwritten)
    else if window < sub64 now (ts (telemetry_idx sz top i)) then
      ({ walk_latest ts cnt (telemetry_idx sz top i) acc with bHaveFullSet := true },
        WalkExit.leftWindow)
    else
      telemetry_loop ts cnt sz top now window (i + 1) fuel
        { walk_latest ts cnt (telemetry_idx sz top i) acc with
            iEarliestStamp := ts (telemetry_idx sz top i),
            iEarliestHashCnt := cnt (telemetry_idx sz top i) }

/-- The `double` result of `calc_telemetry_data`, with the rate kept as
the two `uint64_t` differences the quotient is formed from. -/
inductive TelemetryResult where
  | nan
  | rate (hashes : Nat) (timeMs : Nat)
deriving DecidableEq, Repr

/-- The zero-initialised locals of lines 99-103. -/
def initWalkAcc : WalkAcc := ⟨0, 0, 0, 0, false⟩

/-- `telemetry::calc_telemetry_data(iLastMilisec, iThread)` (lines
94-142) for one thread's row, the clock reading `iTimeNow` being the
parameter `now`. -/
def calc_telemetry_data (ts cnt : Nat → Nat) (sz top now window : Nat) : TelemetryResult :=
  let r := telemetry_loop ts cnt sz top now window 1 (sz - 1) initWalkAcc
  if r.1.bHaveFullSet = false ∨ r.1.iEarliestStamp = 0 ∨ r.1.iLastestStamp = 0 then
    TelemetryResult.nan
  else if sub64 r.1.iLastestStamp r.1.iEarliestStamp = 0 then
    TelemetryResult.nan
  else
    TelemetryResult.rate (sub64 r.1.iLastestHashCnt r.1.iEarliestHashCnt)
      (sub64 r.1.iLastestStamp r.1.iEarliestStamp)

/-- The claim's NaN condition, taken from its words (for comparison
with the code): the backward walk hits an unwritten slot before leaving
the window, or never encounters a sample whose age exceeds the window,
or the latest and earliest timestamps found are equal. -/
def claim_nan_cond (ts cnt : Nat → Nat) (sz top now window : Nat) : Bool :=
  let r := telemetry_loop ts cnt sz top now window 1 (sz - 1) initWalkAcc
  r.2 == WalkExit.hitUnwritten || r.2 == WalkExit.exhausted ||
    r.1.iLastestStamp == r.1.iEarliestStamp

/-- The amended NaN condition: the claim's three cases plus the one it
misses - the walk leaves the window already at the first examined
sample, so no in-window earliest sample was recorded
(`iEarliestStamp` still 0). -/
def amended_nan_cond (ts cnt : Nat → Nat) (sz top now window : Nat) : Bool :=
  let r := telemetry_loop ts cnt sz top now window 1 (sz - 1) initWalkAcc
  claim_nan_cond ts cnt sz top now window ||
    (r.2 == WalkExit.leftWindow && r.1.iEarliestStamp == 0)

/-! ### Helper lemmas for the telemetry walk -/

lemma walk_latest_stamp_ne_zero (ts cnt : Nat → Nat) (idx : Nat) (acc : WalkAcc)
    (h : ts idx ≠ 0) : (walk_latest ts cnt idx acc).iLastestStamp ≠ 0 := by
  rw [walk_latest]
  by_cases h0 : acc.iLastestStamp = 0
  · rw [if_pos h0]
    exact h
  · rw [if_neg h0]
    exact h0

lemma walk_latest_stamp_lt (ts cnt : Nat → Nat) (idx : Nat) (acc : WalkAcc)
    (hts : ts idx < U64) (h : acc.iLastestStamp < U64) :
    (walk_latest ts cnt idx acc).iLastestStamp < U64 := by
  rw [walk_latest]
  by_cases h0 : acc.iLastestStamp = 0
  · rw [if_pos h0]
    exact hts
  · rw [if_neg h0]
    exact h

lemma walk_latest_earliest (ts cnt : Nat → Nat) (idx : Nat) (acc : WalkAcc) :
    (walk_latest ts cnt idx acc).iEarliestStamp = acc.iEarliestStamp := by
  rw [walk_latest]
  by_cases h0 : acc.iLastestStamp = 0
  · rw [if_pos h0]
  · rw [if_neg h0]

lemma walk_latest_full (ts cnt : Nat → Nat) (idx : Nat) (acc : WalkAcc) :
    (walk_latest ts cnt idx acc).bHaveFullSet = acc.bHaveFullSet := by
  rw [walk_latest]
  by_cases h0 : acc.iLastestStamp = 0
  · rw [if_pos h0]
  · rw [if_neg h0]

lemma telemetry_loop_inv (ts cnt : Nat → Nat) (sz top now window : Nat)
    (hts : ∀ s, ts s < U64) :
    ∀ fuel i acc, acc.iLastestStamp < U64 → acc.iEarliestStamp < U64 →
      ((telemetry_loop ts cnt sz top now window i fuel acc).1.iLastestStamp < U64 ∧
        (telemetry_loop ts cnt sz top now window i fuel acc).1.iEarliestStamp < U64) ∧
      ((telemetry_loop ts cnt sz top now window i fuel acc).2 = WalkExit.leftWindow →
        (telemetry_loop ts cnt sz top now window i fuel acc).1.iLastestStamp ≠ 0) ∧
      (acc.bHaveFullSet = false →
        ((telemetry_loop ts cnt sz top now window i fuel acc).1.bHaveFullSet = true ↔
          (telemetry_loop ts cnt sz top now window i fuel acc).2 = WalkExit.leftWindow)) := by
  intro fuel
  induction fuel with
  | zero =>
    intro i acc h1 h2
    refine ⟨⟨h1, h2⟩, ?_, ?_⟩
    · intro h
      exact absurd h (by rw [telemetry_loop]; simp)
    · intro hfull
      rw [telemetry_loop]
      simp [hfull]
  | succ fuel ih =>
    intro i acc h1 h2
    rw [telemetry_loop]
    by_cases hz : ts (telemetry_idx sz top i) = 0
    · rw [if_pos hz]
      refine ⟨⟨h1, h2⟩, by simp, ?_⟩
      intro hfull
      simp [hfull]
    · rw [if_neg hz]
      by_cases hw : window < sub64 now (ts (telemetry_idx sz top i))
      · rw [if_pos hw]
        refine ⟨⟨?_, ?_⟩, ?_, ?_⟩
        · show (walk_latest ts cnt (telemetry_idx sz top i) acc).iLastestStamp < U64
          exact walk_latest_stamp_lt ts cnt _ acc (hts _) h1
        · show (walk_latest ts cnt (telemetry_idx sz top i) acc).iEarliestStamp < U64
          rw [walk_latest_earliest]
          exact h2
        · intro _
          exact walk_latest_stamp_ne_zero ts cnt _ acc hz
        · intro _
          simp
      · rw [if_neg hw]
        obtain ⟨ha, hb, hc⟩ := ih (i + 1)
          { walk_latest ts cnt (telemetry_idx sz top i) acc with
              iEarliestStamp := ts (telemetry_idx sz top i),
              iEarliestHashCnt := cnt (telemetry_idx sz top i) }
          (walk_latest_stamp_lt ts cnt _ acc (hts _) h1) (hts _)
        refine ⟨ha, hb, ?_⟩
        intro hfull
        refine hc ?_
        show (walk_latest ts cnt (telemetry_idx sz top i) acc).bHaveFullSet = false
        rw [walk_latest_full]
        exact hfull

lemma sub64_eq_zero_iff (a b : Nat) (ha : a < U64) (hb : b < U64) :
    sub64 a b = 0 ↔ a = b := by
  rw [sub64]
  rw [U64] at ha hb ⊢
  omega

/-- C4 counterexample: a ring whose newest sample is itself already
older than the window.  Take bucket size 4, `top = 1`, slot 0 written
with timestamp 100 and count 5, all other slots unwritten, `now = 1000`
and a 500 ms window.  The walk records slot 0 as latest, immediately
finds it out of the window (age 900 > 500) and breaks with
`bHaveFullSet` set but `iEarliestStamp` still 0, so the code returns
NaN - yet none of the claim's three NaN conditions holds (no unwritten
slot was hit before leaving the window, a sample older than the window
WAS encountered, and the latest (100) and earliest (0) timestamps
differ), so the claimed "in every other case it returns the rate" is
false at this input. -/
theorem C4_counterexample_stale_ring :
    calc_telemetry_data (fun s => if s = 0 then 100 else 0)
        (fun s => if s = 0 then 5 else 0) 4 1 1000 500 = TelemetryResult.nan ∧
    claim_nan_cond (fun s => if s = 0 then 100 else 0)
        (fun s => if s = 0 then 5 else 0) 4 1 1000 500 = false := by
  constructor
  · decide
  · decide

/-- C4 amended: `hashrate` returns NaN iff the backward walk hits an
unwritten slot before leaving the window, or never encounters a sample
whose age exceeds the window, or the latest and earliest timestamps
found are equal, OR the latest sample is itself already outside the
window so that no in-window earliest sample exists (`iEarliestStamp`
still 0 on the out-of-window break); in every other case it returns the
rate formed from `latest.count - earliest.count` and
`latest.ts - earliest.ts`.  Timestamps are `uint64_t`, hence the bound
hypothesis. -/
theorem C4_nan_characterisation (ts cnt : Nat → Nat) (sz top now window : Nat)
    (hts : ∀ s, ts s < U64) :
    (calc_telemetry_data ts cnt sz top now window = TelemetryResult.nan ↔
      amended_nan_cond ts cnt sz top now window = true) ∧
    (∀ h c, calc_telemetry_data ts cnt sz top now window = TelemetryResult.rate h c →
      (telemetry_loop ts cnt sz top now window 1 (sz - 1) initWalkAcc).2 =
          WalkExit.leftWindow ∧
      h = sub64
            (telemetry_loop ts cnt sz top now window 1 (sz - 1) initWalkAcc).1.iLastestHashCnt
            (telemetry_loop ts cnt sz top now window 1 (sz - 1) initWalkAcc).1.iEarliestHashCnt ∧
      c = sub64
            (telemetry_loop ts cnt sz top now window 1 (sz - 1) initWalkAcc).1.iLastestStamp
            (telemetry_loop ts cnt sz top now window 1 (sz - 1) initWalkAcc).1.iEarliestStamp ∧
      (telemetry_loop ts cnt sz top now window 1 (sz - 1) initWalkAcc).1.iEarliestStamp ≠ 0 ∧
      (telemetry_loop ts cnt sz top now window 1 (sz - 1) initWalkAcc).1.iLastestStamp ≠
        (telemetry_loop ts cnt sz top now window 1 (sz - 1) initWalkAcc).1.iEarliestStamp) := by
  obtain ⟨⟨hltU, hetU⟩, hl3, hl2⟩ :=
    telemetry_loop_inv ts cnt sz top now window hts (sz - 1) 1 initWalkAcc
      (by decide) (by decide)
  have hfull_iff := hl2 rfl
  constructor
  · simp only [calc_telemetry_data, amended_nan_cond, claim_nan_cond]
    cases h2 : (telemetry_loop ts cnt sz top now window 1 (sz - 1) initWalkAcc).2 with
    | hitUnwritten =>
      have hfullF :
          (telemetry_loop ts cnt sz top now window 1 (sz - 1) initWalkAcc).1.bHaveFullSet
            = false := by
        rcases Bool.eq_false_or_eq_true
            (telemetry_loop ts cnt sz top now window 1 (sz - 1) initWalkAcc).1.bHaveFullSet
          with htb | hf
        · exact absurd (hfull_iff.mp htb) (by rw [h2]; simp)
        · exact hf
      rw [if_pos (Or.inl hfullF)]
      simp [h2]
    | exhausted =>
      have hfullF :
          (telemetry_loop ts cnt sz top now window 1 (sz - 1) initWalkAcc).1.bHaveFullSet
            = false := by
        rcases Bool.eq_false_or_eq_true
            (telemetry_loop ts cnt sz top now window 1 (sz - 1) initWalkAcc).1.bHaveFullSet
          with htb | hf
        · exact absurd (hfull_iff.mp htb) (by rw [h2]; simp)
        · exact hf
      rw [if_pos (Or.inl hfullF)]
      simp [h2]
    | leftWindow =>
      have hfullT :
          (telemetry_loop ts cnt sz top now window 1 (sz - 1) initWalkAcc).1.bHaveFullSet
            = true := hfull_iff.mpr h2
      have hlne :
          (telemetry_loop ts cnt sz top now window 1 (sz - 1) initWalkAcc).1.iLastestStamp
            ≠ 0 := hl3 h2
      by_cases he :
          (telemetry_loop ts cnt sz top now window 1 (sz - 1) initWalkAcc).1.iEarliestStamp
            = 0
      · rw [if_pos (Or.inr (Or.inl he))]
        simp [h2, he]
      · rw [if_neg (by simp [hfullT, he, hlne])]
        by_cases hse :
            sub64 (telemetry_loop ts cnt sz top now window 1 (sz - 1) initWalkAcc).1.iLastestStamp
              (telemetry_loop ts cnt sz top now window 1 (sz - 1) initWalkAcc).1.iEarliestStamp
              = 0
        · rw [if_pos hse]
          simp [h2, (sub64_eq_zero_iff _ _ hltU hetU).mp hse]
        · rw [if_neg hse]
          have hlneq :
              (telemetry_loop ts cnt sz top now window 1 (sz - 1) initWalkAcc).1.iLastestStamp
                ≠ (telemetry_loop ts cnt sz top now window 1 (sz - 1) initWalkAcc).1.iEarliestStamp :=
            fun hh => hse ((sub64_eq_zero_iff _ _ hltU hetU).mpr hh)
          simp [h2, he, hlneq]
  · intro h c hrate
    simp only [calc_telemetry_data] at hrate
    split_ifs at hrate with hP hQ
    push_neg at hP
    obtain ⟨hfullne, hene, hlne⟩ := hP
    have hfullT :
        (telemetry_loop ts cnt sz top now window 1 (sz - 1) initWalkAcc).1.bHaveFullSet
          = true := by
      rcases Bool.eq_false_or_eq_true
          (telemetry_loop ts cnt sz top now window 1 (sz - 1) initWalkAcc).1.bHaveFullSet
        with htb | hfb
      · exact htb
      · exact absurd hfb hfullne
    have hexit := hfull_iff.mp hfullT
    rw [TelemetryResult.rate.injEq] at hrate
    obtain ⟨hh, hc⟩ := hrate
    exact ⟨hexit, hh.symm, hc.symm, hene,
      fun hb => hQ ((sub64_eq_zero_iff _ _ hltU hetU).mpr hb)⟩

theorem C4_nan_characterisation_witness :
    amended_nan_cond (fun s => if s = 0 then 100 else 0)
      (fun s => if s = 0 then 5 else 0) 4 1 1000 500 = true :=
  (C4_nan_characterisation (fun s => if s = 0 then 100 else 0)
      (fun s => if s = 0 then 5 else 0) 4 1 1000 500
      (fun s => by
        dsimp only
        by_cases hs : s = 0
        · rw [if_pos hs]; decide
        · rw [if_neg hs]; decide)).1.mp (by decide)
